import Mathlib

/-!
Verification of the trading-robot backtesting core (backtest.py, monte_carlo.py).

The Python source works on pandas/numpy floats; the embedding models ideal
float arithmetic over the rationals, with the IEEE special values (infinity,
NaN) represented explicitly where the source can produce them (profit factor,
RSI).  Timestamps are rationals: for the trade simulator the unit is one
calendar day (the calendar day of a bar is the floor of its time), for the
walk-forward engine the unit is one calendar month (pd.DateOffset(months=m)
is addition of m).
-/

set_option allowUnsafeReducibility true
set_option maxRecDepth 8000

attribute [local semireducible] Rat.add Rat.mul Rat.div Rat.sub Rat.neg Rat.inv

namespace TradingRobot

/-! ### Shared numeric helpers (np.cumsum, np.maximum.accumulate, np.max) -/

/-- np.cumsum: running sums of a list, starting from the first element. -/
def cumsum (l : List ℚ) : List ℚ :=
  go 0 l
where
  go (acc : ℚ) : List ℚ → List ℚ
    | [] => []
    | x :: xs => (acc + x) :: go (acc + x) xs

/-- np.maximum.accumulate: running maxima of a list. -/
def runningMax : List ℚ → List ℚ
  | [] => []
  | x :: xs => go x xs
where
  go (m : ℚ) : List ℚ → List ℚ
    | [] => [m]
    | y :: ys => m :: go (max m y) ys

/-- np.max guarded by the source's `if len(...) > 0 else 0`. -/
def listMax : List ℚ → ℚ
  | [] => 0
  | x :: xs => xs.foldl max x

/-- np.min guarded the same way (used for the walk-forward start bound). -/
def listMin : List ℚ → ℚ
  | [] => 0
  | x :: xs => xs.foldl min x

/-- Drawdown series: running_max(cumsum) - cumsum, as in
`calculate_performance_metrics` / `calculate_max_drawdown`. -/
def drawdownList (returns : List ℚ) : List ℚ :=
  List.zipWith (· - ·) (runningMax (cumsum returns)) (cumsum returns)

/-- `calculate_max_drawdown` (monte_carlo.py) and the identical inline code in
`calculate_performance_metrics` (backtest.py): max of the drawdown series,
0 when the series is empty. -/
def calculate_max_drawdown (returns : List ℚ) : ℚ :=
  listMax (drawdownList returns)

/-! ### Trades and the metrics calculator (backtest.py) -/

/-- Trade direction ('BUY' / 'SELL' in the source). -/
inductive Direction where
  | buy
  | sell
deriving DecidableEq

/-- A closed trade, the dict built by `close_position` (the constant
`status = CLOSED` key is omitted). -/
structure TradeRec where
  symbol : String
  direction : Direction
  entry_price : ℚ
  exit_price : ℚ
  entry_time : ℚ
  exit_time : ℚ
  lot_size : ℚ
  pnl : ℚ
  duration : ℚ
deriving DecidableEq

/-- Profit factor: the source stores a float that is either finite or
`float(inf)` (when `total_loss` is 0). -/
inductive ProfitFactor where
  | val (q : ℚ)
  | posInf
deriving DecidableEq

/-- The metrics record assembled by `calculate_performance_metrics`.
The `sharpe_ratio` key is omitted from the embedding: it is
`mean/np.std(returns)*sqrt(252)`, an irrational real, and no claim
mentions it. -/
structure MetricsRec where
  total_trades : ℕ
  winning_trades : ℕ
  losing_trades : ℕ
  win_rate : ℚ
  net_profit : ℚ
  total_profit : ℚ
  total_loss : ℚ
  profit_factor : ProfitFactor
  max_drawdown : ℚ
  expectancy : ℚ
  avg_win : ℚ
  avg_loss : ℚ
deriving DecidableEq

/-- `calculate_performance_metrics` (backtest.py, lines 381-442).  On an
empty trade list the source returns the empty dict `{}`, modelled as `none`;
callers read fields through `.get(key, 0)`, modelled by `Option.map` plus
`getD 0`. -/
def calculate_performance_metrics (trades : List TradeRec) : Option MetricsRec :=
  if trades = [] then none
  else
    let pnls := trades.map (·.pnl)
    let total_trades := pnls.length
    let winning_trades := (pnls.filter (fun x => decide (0 < x))).length
    let losing_trades := (pnls.filter (fun x => decide (x < 0))).length
    let total_profit := (pnls.filter (fun x => decide (0 < x))).sum
    let total_loss := |(pnls.filter (fun x => decide (x < 0))).sum|
    let net_profit := pnls.sum
    let win_rate := if 0 < total_trades then (winning_trades : ℚ) / total_trades * 100 else 0
    let profit_factor :=
      if 0 < total_loss then ProfitFactor.val (total_profit / total_loss) else ProfitFactor.posInf
    let max_drawdown := calculate_max_drawdown pnls
    let avg_win := if 0 < winning_trades then total_profit / winning_trades else 0
    let avg_loss := if 0 < losing_trades then total_loss / losing_trades else 0
    let expectancy := win_rate / 100 * avg_win - (100 - win_rate) / 100 * avg_loss
    some {
      total_trades := total_trades
      winning_trades := winning_trades
      losing_trades := losing_trades
      win_rate := win_rate
      net_profit := net_profit
      total_profit := total_profit
      total_loss := total_loss
      profit_factor := profit_factor
      max_drawdown := max_drawdown
      expectancy := expectancy
      avg_win := avg_win
      avg_loss := avg_loss }

/-- Build a trade whose only relevant payload is its P&L (the metrics
calculator reads only the `pnl` column). -/
def pnlTrade (p : ℚ) : TradeRec :=
  { symbol := "EURUSD", direction := .buy, entry_price := 1, exit_price := 1,
    entry_time := 0, exit_time := 1, lot_size := 1/100, pnl := p, duration := 1 }

/-- The spec's fixed 10-trade example (§8 of the spec). -/
def c5Trades : List TradeRec :=
  [pnlTrade 50, pnlTrade (-20), pnlTrade 30, pnlTrade (-10), pnlTrade 40,
   pnlTrade (-15), pnlTrade 25, pnlTrade (-5), pnlTrade 60, pnlTrade (-30)]

/-- Modelled from the spec: the profit-factor rule as §3 words it — gross
profit / gross loss when gross loss is positive, +infinity when gross loss is
zero and gross profit positive, 0 when both are zero.  (The source has no
such three-way rule; this definition exists to be compared with it.) -/
def specProfitFactor (grossProfit grossLoss : ℚ) : ProfitFactor :=
  if 0 < grossLoss then ProfitFactor.val (grossProfit / grossLoss)
  else if 0 < grossProfit then ProfitFactor.posInf
  else ProfitFactor.val 0

/-! ### The trade simulator (backtest.py, `simulate_trades` and helpers) -/

/-- One row of the signal-augmented frame, with the fields `simulate_trades`
reads (`row.name` is the `time` field; signals are the 0/1 columns).  Bar
times are in days, so the calendar day of a bar is `⌊time⌋`. -/
structure Bar where
  time : ℚ
  close : ℚ
  buy_signal : Bool
  sell_signal : Bool
deriving DecidableEq

/-- Calendar day of a timestamp (used only to state the daily-limit claims:
the source itself never inspects the calendar day). -/
def calendarDay (t : ℚ) : ℤ := ⌊t⌋

/-- The strategy parameters `simulate_trades` consults, plus the symbol and
the `'JPY' in symbol` test precomputed as a flag. -/
structure SimConfig where
  initial_balance : ℚ
  risk_per_trade : ℚ
  daily_loss_limit : ℚ
  stop_loss_pips : ℚ
  take_profit_pips : ℚ
  isJpy : Bool
  symbol : String

/-- `0.0001 if 'JPY' not in symbol else 0.01` (`open_position`). -/
def pip_value (isJpy : Bool) : ℚ := if isJpy then 1/100 else 1/10000

/-- Python's `round(x, 2)`: round half to even at two decimals (ideal-float
model of the source's float rounding). -/
def round2 (q : ℚ) : ℚ :=
  let f := ⌊q * 100⌋
  let r := q * 100 - f
  let n : ℤ :=
    if r < 1/2 then f
    else if 1/2 < r then f + 1
    else if f % 2 = 0 then f else f + 1
  (n : ℚ) / 100

/-- `calculate_position_size` (backtest.py, lines 212-234); the `price`
argument is unused in the source as well. -/
def calculate_position_size (cfg : SimConfig) (balance _price stop_loss_distance : ℚ) : ℚ :=
  let risk_amount := balance * cfg.risk_per_trade / 100
  let lot_size := risk_amount / (stop_loss_distance * 100000)
  round2 (min (max lot_size (1/100)) 1)

/-- An open position, the dict built by `open_position` (the constant
`status = OPEN` key is omitted). -/
structure Position where
  symbol : String
  direction : Direction
  entry_price : ℚ
  entry_time : ℚ
  lot_size : ℚ
  stop_loss : ℚ
  take_profit : ℚ
deriving DecidableEq

/-- `open_position` (backtest.py, lines 287-326). -/
def open_position (cfg : SimConfig) (direction : Direction) (bar : Bar) (balance : ℚ) :
    Position :=
  let price := bar.close
  let pip := pip_value cfg.isJpy
  let stop_loss_distance := cfg.stop_loss_pips * pip
  let take_profit_distance := cfg.take_profit_pips * pip
  { symbol := cfg.symbol
    direction := direction
    entry_price := price
    entry_time := bar.time
    lot_size := calculate_position_size cfg balance price stop_loss_distance
    stop_loss := if direction = .buy then price - stop_loss_distance else price + stop_loss_distance
    take_profit :=
      if direction = .buy then price + take_profit_distance else price - take_profit_distance }

/-- `should_close_position` (backtest.py, lines 328-344). -/
def should_close_position (p : Position) (bar : Bar) : Bool :=
  match p.direction with
  | .buy => decide (bar.close ≤ p.stop_loss) || decide (p.take_profit ≤ bar.close)
  | .sell => decide (p.stop_loss ≤ bar.close) || decide (bar.close ≤ p.take_profit)

/-- `close_position` (backtest.py, lines 346-379); its `balance` argument is
unused in the source as well. -/
def close_position (p : Position) (bar : Bar) (_balance : ℚ) : TradeRec :=
  let pnl :=
    match p.direction with
    | .buy => (bar.close - p.entry_price) * p.lot_size * 100000
    | .sell => (p.entry_price - bar.close) * p.lot_size * 100000
  { symbol := p.symbol
    direction := p.direction
    entry_price := p.entry_price
    exit_price := bar.close
    entry_time := p.entry_time
    exit_time := bar.time
    lot_size := p.lot_size
    pnl := pnl
    duration := bar.time - p.entry_time }

/-- The mutable tuple of `simulate_trades`' bar loop: balance, current
position, consecutive-loss counter, daily-P&L accumulator, trade log. -/
structure SimState where
  balance : ℚ
  position : Option Position
  consecutive_losses : ℕ
  daily_pnl : ℚ
  trades : List TradeRec
deriving DecidableEq

/-- The "close existing position" half of the loop body
(backtest.py, lines 262-276). -/
def close_step (s : SimState) (bar : Bar) : SimState :=
  match s.position with
  | some p =>
    if should_close_position p bar then
      let t := close_position p bar s.balance
      { balance := s.balance + t.pnl
        position := none
        consecutive_losses := if t.pnl < 0 then s.consecutive_losses + 1 else 0
        daily_pnl := s.daily_pnl + t.pnl
        trades := s.trades ++ [t] }
    else s
  | none => s

/-- The "open new position" half of the loop body
(backtest.py, lines 278-283). -/
def open_step (cfg : SimConfig) (s : SimState) (bar : Bar) : SimState :=
  match s.position with
  | none =>
    if bar.buy_signal then { s with position := some (open_position cfg .buy bar s.balance) }
    else if bar.sell_signal then { s with position := some (open_position cfg .sell bar s.balance) }
    else s
  | some _ => s

/-- One iteration of the `simulate_trades` bar loop (backtest.py, lines
253-283): the daily-loss gate, then the consecutive-loss gate (each a
`continue`), then close-then-open. -/
def sim_step (cfg : SimConfig) (s : SimState) (bar : Bar) : SimState :=
  if s.daily_pnl ≤ -s.balance * cfg.daily_loss_limit / 100 then s
  else if 3 ≤ s.consecutive_losses then s
  else open_step cfg (close_step s bar) bar

/-- The state after the gates and the close half of the bar body, i.e. the
state in force at the instant an open transition would be attempted. -/
def after_close (cfg : SimConfig) (s : SimState) (bar : Bar) : SimState :=
  if s.daily_pnl ≤ -s.balance * cfg.daily_loss_limit / 100 then s
  else if 3 ≤ s.consecutive_losses then s
  else close_step s bar

/-- Initial loop state of `simulate_trades` (lines 247-251). -/
def init_state (cfg : SimConfig) : SimState :=
  { balance := cfg.initial_balance, position := none, consecutive_losses := 0,
    daily_pnl := 0, trades := [] }

/-- The whole bar loop of `simulate_trades`, returning the final state. -/
def run_simulation (cfg : SimConfig) (bars : List Bar) : SimState :=
  bars.foldl (sim_step cfg) (init_state cfg)

/-- `simulate_trades` (backtest.py, lines 236-285): the list of closed
trades. -/
def simulate_trades (cfg : SimConfig) (bars : List Bar) : List TradeRec :=
  (run_simulation cfg bars).trades

/-- Once the consecutive-loss counter has reached 3, the loop body is the
identity: both closes and opens are skipped, whatever the gates' order. -/
theorem sim_step_frozen (cfg : SimConfig) (s : SimState) (bar : Bar)
    (h : 3 ≤ s.consecutive_losses) : sim_step cfg s bar = s := by
  unfold sim_step
  rw [if_pos h]
  split <;> rfl

/-- A state with consecutive-loss counter at 3 or more is a fixed point of
the whole remaining bar loop. -/
theorem foldl_frozen (cfg : SimConfig) (bars : List Bar) (s : SimState)
    (h : 3 ≤ s.consecutive_losses) : bars.foldl (sim_step cfg) s = s := by
  induction bars with
  | nil => rfl
  | cons b bs ih => rw [List.foldl_cons, sim_step_frozen cfg s b h]; exact ih

/-! ### Concrete scenarios for the simulator claims -/

/-- Default configuration (config.ini defaults quoted in backtest.py):
balance 10, risk 0.5 %, daily loss limit 3 %, SL 8 pips, TP 12 pips. -/
def cfgC1 : SimConfig :=
  { initial_balance := 10, risk_per_trade := 1/2, daily_loss_limit := 3,
    stop_loss_pips := 8, take_profit_pips := 12, isJpy := false, symbol := "EURUSD" }

/-- Day 0, bar 1: buy signal at 1.0000 (opens a BUY, SL 0.9992, TP 1.0012). -/
def c1b0 : Bar := { time := 0, close := 1, buy_signal := true, sell_signal := false }

/-- Day 0, bar 2: close 0.9992 hits the stop loss (P&L −0.8, which trips the
daily-loss gate: −0.8 ≤ −9.2·3/100). -/
def c1b1 : Bar := { time := 1/2, close := 9992/10000, buy_signal := false, sell_signal := false }

/-- Day 1, bar 1: a fresh buy signal at 1.0000 on the next calendar day. -/
def c1b2 : Bar := { time := 1, close := 1, buy_signal := true, sell_signal := false }

/-- Day 1, bar 2: close 1.0012 would hit the take profit of that position. -/
def c1b3 : Bar := { time := 3/2, close := 10012/10000, buy_signal := false, sell_signal := false }

/-- Claim C1.  The daily-loss gate does release on the gate-tripped bar's day
(first conjuncts), but the accumulator `daily_pnl` is never reset at a
calendar-day boundary: after the day-0 loss trips the gate, the day-1 bars —
which on their own produce a complete winning trade (third conjunct) — are
skipped, the trade log stays at the single day-0 trade, and the accumulator
still holds the day-0 loss at the end (fourth conjunct).  The claimed
"gate releases at the first bar of the next calendar day" is false of the
code. -/
theorem c1_daily_gate_never_resets :
    (run_simulation cfgC1 [c1b0, c1b1]).trades.length = 1 ∧
    (run_simulation cfgC1 [c1b0, c1b1, c1b2, c1b3]).trades.length = 1 ∧
    (run_simulation cfgC1 [c1b2, c1b3]).trades.length = 1 ∧
    (run_simulation cfgC1 [c1b0, c1b1, c1b2, c1b3]).daily_pnl = -4/5 ∧
    calendarDay c1b2.time = calendarDay c1b0.time + 1 ∧
    c1b2.buy_signal = true := by
  refine ⟨by decide, by decide, by decide, by decide, by decide, rfl⟩

/-- Configuration with the daily-loss gate effectively disabled, so the
consecutive-loss gate is the one that trips. -/
def cfgC2 : SimConfig :=
  { initial_balance := 10, risk_per_trade := 1/2, daily_loss_limit := 1000,
    stop_loss_pips := 8, take_profit_pips := 12, isJpy := false, symbol := "EURUSD" }

/-- Three buy-then-stop-loss pairs: three consecutive losing trades. -/
def c2Bars : List Bar :=
  [ { time := 0, close := 1, buy_signal := true, sell_signal := false },
    { time := 1/10, close := 9992/10000, buy_signal := false, sell_signal := false },
    { time := 2/10, close := 1, buy_signal := true, sell_signal := false },
    { time := 3/10, close := 9992/10000, buy_signal := false, sell_signal := false },
    { time := 4/10, close := 1, buy_signal := true, sell_signal := false },
    { time := 5/10, close := 9992/10000, buy_signal := false, sell_signal := false } ]

/-- Claim C2, counterexample.  `c2Bars` drives the consecutive-loss counter to
3, and from there NO continuation of the bar sequence ever changes the trade
log: the gate skips every subsequent bar, so no winning trade can ever close
and the counter can never return to zero.  The claimed "there exist
continuations in which a winning trade closes and the counter resets" is
false. -/
theorem c2_pause_never_releases :
    (run_simulation cfgC2 c2Bars).consecutive_losses = 3 ∧
    ¬ ∃ cont : List Bar,
        simulate_trades cfgC2 (c2Bars ++ cont) ≠ simulate_trades cfgC2 c2Bars := by
  refine ⟨by decide, ?_⟩
  rintro ⟨cont, hne⟩
  apply hne
  unfold simulate_trades run_simulation
  rw [List.foldl_append]
  have h3 : 3 ≤ (List.foldl (sim_step cfgC2) (init_state cfgC2) c2Bars).consecutive_losses := by
    decide
  rw [foldl_frozen cfgC2 cont _ h3]

/-- Claim C2, amended.  After 3 consecutive losing trades the pause is
permanent: every state whose consecutive-loss counter is at 3 (or more) is a
fixed point of the rest of the simulation — no bar is ever processed again,
no trade opens or closes, and the counter never resets. -/
theorem c2_amended_pause_is_permanent (cfg : SimConfig) (bars : List Bar) (s : SimState)
    (h : 3 ≤ s.consecutive_losses) : bars.foldl (sim_step cfg) s = s :=
  foldl_frozen cfg bars s h

/-- A frozen state reached by `c2Bars` (balance 7.6, three −0.8 losses). -/
def c2FrozenState : SimState :=
  { balance := 38/5, position := none, consecutive_losses := 3, daily_pnl := -12/5, trades := [] }

/-- Witness for `c2_amended_pause_is_permanent` at a concrete frozen state and
a concrete continuation bar. -/
theorem c2_amended_pause_is_permanent_witness :
    [c1b2, c1b3].foldl (sim_step cfgC2) c2FrozenState = c2FrozenState :=
  c2_amended_pause_is_permanent cfgC2 [c1b2, c1b3] c2FrozenState (by decide)

/-- Claim C9.  The state in force when the open half of a bar body runs is
the post-close state `after_close`: if that state still holds a position
(i.e. is not FLAT), the bar's final state holds that same position — an open
transition never fires from a non-FLAT state, and a close on the same bar
happens before any open.  (At most one position can exist at any time by
construction: the state's `position` slot is a single `Option Position`.) -/
theorem c9_flat_before_open (cfg : SimConfig) (s : SimState) (bar : Bar) (p : Position)
    (h : (after_close cfg s bar).position = some p) :
    (sim_step cfg s bar).position = some p := by
  unfold after_close at h
  unfold sim_step
  split_ifs at h ⊢
  · exact h
  · exact h
  · unfold open_step
    rw [h]
    exact h

/-- A concrete in-position state for the C9 witness. -/
def c9State : SimState :=
  { balance := 10,
    position := some (open_position cfgC1 .buy c1b0 10),
    consecutive_losses := 0, daily_pnl := 0, trades := [] }

/-- A bar that neither closes the open position (close 1.0005 is strictly
between SL and TP) nor lets any gate trip, yet carries a buy signal. -/
def c9Bar : Bar := { time := 1/4, close := 10005/10000, buy_signal := true, sell_signal := false }

/-- Witness for `c9_flat_before_open`: the held position survives the bar
even though the bar carries a fresh buy signal. -/
theorem c9_flat_before_open_witness :
    (sim_step cfgC1 c9State c9Bar).position = some (open_position cfgC1 .buy c1b0 10) :=
  c9_flat_before_open cfgC1 c9State c9Bar (open_position cfgC1 .buy c1b0 10) (by decide)

/-! ### Metrics-calculator claims -/

/-- Claim C3.  On the empty trade sequence `calculate_performance_metrics`
returns the empty record (the source's `{}`, modelled as `none`) without
raising, and every field read through the callers' `.get(key, 0)` convention
is 0. -/
theorem c3_empty_trades_all_zero :
    calculate_performance_metrics [] = none ∧
    (∀ f : MetricsRec → ℚ, ((calculate_performance_metrics []).map f).getD 0 = 0) ∧
    (∀ g : MetricsRec → ℕ, ((calculate_performance_metrics []).map g).getD 0 = 0) := by
  refine ⟨rfl, fun f => rfl, fun g => rfl⟩

/-- Claim C4, counterexample.  For the one-trade log whose only P&L is 0,
gross profit and gross loss are both 0, yet the code's profit factor is
`float(inf)` — not the 0 the claim's third branch demands. -/
theorem c4_profit_factor_both_zero_is_inf :
    (calculate_performance_metrics [pnlTrade 0]).map (·.total_profit) = some 0 ∧
    (calculate_performance_metrics [pnlTrade 0]).map (·.total_loss) = some 0 ∧
    (calculate_performance_metrics [pnlTrade 0]).map (·.profit_factor) =
      some ProfitFactor.posInf ∧
    specProfitFactor 0 0 = ProfitFactor.val 0 ∧
    ProfitFactor.posInf ≠ ProfitFactor.val 0 := by
  refine ⟨by decide, by decide, by decide, by decide, by decide⟩

/-- Claim C4, amended.  For every nonempty trade sequence the profit factor
is gross profit / gross loss when gross loss is positive, and `+infinity`
whenever gross loss is zero — including when gross profit is also zero. -/
theorem c4_amended_profit_factor (trades : List TradeRec) (h : trades ≠ []) :
    ∃ m, calculate_performance_metrics trades = some m ∧
      m.profit_factor =
        (if 0 < m.total_loss then ProfitFactor.val (m.total_profit / m.total_loss)
         else ProfitFactor.posInf) := by
  unfold calculate_performance_metrics
  rw [if_neg h]
  exact ⟨_, rfl, rfl⟩

/-- Witness for `c4_amended_profit_factor` on the spec's 10-trade list. -/
theorem c4_amended_profit_factor_witness :
    ∃ m, calculate_performance_metrics c5Trades = some m ∧
      m.profit_factor =
        (if 0 < m.total_loss then ProfitFactor.val (m.total_profit / m.total_loss)
         else ProfitFactor.posInf) :=
  c4_amended_profit_factor c5Trades (by decide)

/-- Claim C5.  On the spec's fixed list `[50, −20, 30, −10, 40, −15, 25, −5,
60, −30]` the metrics calculator reports 5 winners, 5 losers, net profit 125
and win rate 50 % (the stated initial balance 1000 does not enter the
calculation). -/
theorem c5_fixed_list_metrics :
    (calculate_performance_metrics c5Trades).map (·.winning_trades) = some 5 ∧
    (calculate_performance_metrics c5Trades).map (·.losing_trades) = some 5 ∧
    (calculate_performance_metrics c5Trades).map (·.net_profit) = some 125 ∧
    (calculate_performance_metrics c5Trades).map (·.win_rate) = some 50 := by
  refine ⟨by decide, by decide, by decide, by decide⟩

/-! ### RSI (backtest.py, `calculate_indicators`, lines 161-166)

The source computes, on float series:
`delta = close.diff()`, `gain = delta.where(delta > 0, 0).rolling(14).mean()`,
`loss = (-delta.where(delta < 0, 0)).rolling(14).mean()`, `rs = gain/loss`,
`RSI = 100 - 100/(1+rs)`.  `diff()` makes the first delta NaN, and `.where`
replaces it (NaN > 0 and NaN < 0 are false) by 0, so the gain/loss series is
everywhere defined with a phantom 0 at index 0; the 14-bar rolling means are
defined from index 13 on.  Past that warm-up the arithmetic runs on floats,
where `x/0` is `+inf` for `x > 0` and `0/0` is NaN — modelled by `FVal`. -/

/-- An ideal float: a finite rational, a signed infinity, or NaN. -/
inductive FVal where
  | fin (q : ℚ)
  | pinf
  | ninf
  | nan
deriving DecidableEq

/-- IEEE addition on ideal floats. -/
def FVal.add : FVal → FVal → FVal
  | .fin a, .fin b => .fin (a + b)
  | .nan, _ => .nan
  | _, .nan => .nan
  | .pinf, .ninf => .nan
  | .ninf, .pinf => .nan
  | .pinf, _ => .pinf
  | _, .pinf => .pinf
  | .ninf, _ => .ninf
  | _, .ninf => .ninf

/-- IEEE subtraction on ideal floats. -/
def FVal.sub : FVal → FVal → FVal
  | .fin a, .fin b => .fin (a - b)
  | .nan, _ => .nan
  | _, .nan => .nan
  | .pinf, .pinf => .nan
  | .ninf, .ninf => .nan
  | .pinf, _ => .pinf
  | _, .ninf => .pinf
  | .ninf, _ => .ninf
  | _, .pinf => .ninf

/-- IEEE division on ideal floats (zero is unsigned, as the rolling means the
source divides are). -/
def FVal.div : FVal → FVal → FVal
  | .nan, _ => .nan
  | _, .nan => .nan
  | .fin a, .fin b =>
    if b = 0 then (if a = 0 then .nan else if 0 < a then .pinf else .ninf)
    else .fin (a / b)
  | .fin _, .pinf => .fin 0
  | .fin _, .ninf => .fin 0
  | .pinf, .fin b => if b < 0 then .ninf else .pinf
  | .ninf, .fin b => if b < 0 then .pinf else .ninf
  | .pinf, _ => .nan
  | .ninf, _ => .nan

/-- Close-to-close delta at index `j` (`close.diff()`); `j = 0` has no
predecessor. -/
def deltaAt (closes : List ℚ) (j : ℕ) : ℚ :=
  closes.getD j 0 - closes.getD (j - 1) 0

/-- `delta.where(delta > 0, 0)` at index `j`: the positive part of the delta,
with the undefined first delta replaced by 0. -/
def gainAt (closes : List ℚ) (j : ℕ) : ℚ :=
  if j = 0 then 0 else max (deltaAt closes j) 0

/-- `(-delta.where(delta < 0, 0))` at index `j`: the negative part of the
delta, with the undefined first delta replaced by 0. -/
def lossAt (closes : List ℚ) (j : ℕ) : ℚ :=
  if j = 0 then 0 else max (-(deltaAt closes j)) 0

/-- 14-bar trailing mean of the gain series at index `i` (defined for
`13 ≤ i < length`). -/
def gain_avg (closes : List ℚ) (i : ℕ) : ℚ :=
  ((List.range 14).map fun k => gainAt closes (i - k)).sum / 14

/-- 14-bar trailing mean of the loss series at index `i`. -/
def loss_avg (closes : List ℚ) (i : ℕ) : ℚ :=
  ((List.range 14).map fun k => lossAt closes (i - k)).sum / 14

/-- The float pipeline `100 - 100/(1 + gain/loss)` on the two rolling
means. -/
def rsiCore (g l : ℚ) : FVal :=
  FVal.sub (.fin 100) (FVal.div (.fin 100) (FVal.add (.fin 1) (FVal.div (.fin g) (.fin l))))

/-- `df['RSI']` at bar `i`: NaN during the rolling warm-up (the source's
first 13 rows) and outside the frame, the float pipeline afterwards. -/
def rsiAt (closes : List ℚ) (i : ℕ) : FVal :=
  if 13 ≤ i ∧ i < closes.length then rsiCore (gain_avg closes i) (loss_avg closes i)
  else FVal.nan

theorem gainAt_nonneg (closes : List ℚ) (j : ℕ) : 0 ≤ gainAt closes j := by
  unfold gainAt
  split
  · exact le_refl 0
  · exact le_max_right _ _

theorem lossAt_nonneg (closes : List ℚ) (j : ℕ) : 0 ≤ lossAt closes j := by
  unfold lossAt
  split
  · exact le_refl 0
  · exact le_max_right _ _

theorem gain_avg_nonneg (closes : List ℚ) (i : ℕ) : 0 ≤ gain_avg closes i := by
  apply div_nonneg _ (by norm_num)
  apply List.sum_nonneg
  intro x hx
  obtain ⟨k, -, rfl⟩ := List.mem_map.1 hx
  exact gainAt_nonneg closes (i - k)

theorem loss_avg_nonneg (closes : List ℚ) (i : ℕ) : 0 ≤ loss_avg closes i := by
  apply div_nonneg _ (by norm_num)
  apply List.sum_nonneg
  intro x hx
  obtain ⟨k, -, rfl⟩ := List.mem_map.1 hx
  exact lossAt_nonneg closes (i - k)

theorem rsiCore_of_pos (g l : ℚ) (hg : 0 ≤ g) (hl : 0 < l) :
    rsiCore g l = .fin (100 - 100 / (1 + g / l)) := by
  have hgl : 0 ≤ g / l := div_nonneg hg hl.le
  have h1 : (1 : ℚ) + g / l ≠ 0 := by positivity
  unfold rsiCore
  rw [FVal.div, if_neg hl.ne']
  rw [FVal.add]
  rw [FVal.div, if_neg h1]
  rw [FVal.sub]

theorem rsiCore_gain_only (g : ℚ) (hg : 0 < g) : rsiCore g 0 = .fin 100 := by
  unfold rsiCore
  rw [FVal.div, if_pos rfl, if_neg hg.ne', if_pos hg]
  show FVal.sub (.fin 100) (FVal.div (.fin 100) (FVal.add (.fin 1) .pinf)) = .fin 100
  rw [show FVal.add (.fin 1) .pinf = .pinf from rfl]
  rw [show FVal.div (.fin 100) .pinf = .fin 0 from rfl]
  rw [FVal.sub]
  norm_num

/-- Claim C6, counterexample.  A flat series (20 equal closes) has no
negative close-to-close delta in the trailing window at bar 14, yet the RSI
there is NaN — the float pipeline computes `0/0`, not the claimed guarded
value 100. -/
theorem c6_flat_series_rsi_is_nan :
    rsiAt (List.replicate 20 1) 14 = FVal.nan ∧
    (∀ k, k < 14 → lossAt (List.replicate 20 1) (14 - k) = 0) ∧
    FVal.nan ≠ FVal.fin 100 := by
  refine ⟨by decide, by decide, by decide⟩

/-- Claim C6, amended.  (1) Wherever the RSI is a (finite) number it lies in
[0, 100].  (2) If no bar of the trailing 14-window has a negative delta and
at least one has a positive delta, the RSI is exactly 100 (the `x/0 = +inf`
path).  (3) If every delta in the trailing window is zero — a flat window —
both rolling means are 0 and the RSI is NaN (`0/0`), not 100. -/
theorem c6_amended_rsi_range :
    (∀ closes : List ℚ, ∀ i : ℕ, ∀ q : ℚ, rsiAt closes i = FVal.fin q →
       0 ≤ q ∧ q ≤ 100) ∧
    (∀ closes : List ℚ, ∀ i : ℕ, 13 ≤ i → i < closes.length →
       (∀ k, k < 14 → lossAt closes (i - k) = 0) →
       (∃ k, k < 14 ∧ 0 < gainAt closes (i - k)) →
       rsiAt closes i = FVal.fin 100) ∧
    (∀ closes : List ℚ, ∀ i : ℕ, 13 ≤ i → i < closes.length →
       (∀ k, k < 14 → gainAt closes (i - k) = 0) →
       (∀ k, k < 14 → lossAt closes (i - k) = 0) →
       rsiAt closes i = FVal.nan) := by
  refine ⟨?_, ?_, ?_⟩
  · intro closes i q h
    unfold rsiAt at h
    by_cases hdef : 13 ≤ i ∧ i < closes.length
    · rw [if_pos hdef] at h
      have hg := gain_avg_nonneg closes i
      have hl := loss_avg_nonneg closes i
      rcases hl.lt_or_eq with hl' | hl'
      · rw [rsiCore_of_pos _ _ hg hl'] at h
        have hq : q = 100 - 100 / (1 + gain_avg closes i / loss_avg closes i) := by
          injection h with h'
          exact h'.symm
        have hgl : 0 ≤ gain_avg closes i / loss_avg closes i := div_nonneg hg hl'.le
        have h1 : (1 : ℚ) ≤ 1 + gain_avg closes i / loss_avg closes i := by linarith
        have hle : 100 / (1 + gain_avg closes i / loss_avg closes i) ≤ 100 :=
          div_le_self (by norm_num) h1
        have hpos : 0 ≤ 100 / (1 + gain_avg closes i / loss_avg closes i) :=
          div_nonneg (by norm_num) (by linarith)
        constructor
        · rw [hq]; linarith
        · rw [hq]; linarith
      · rcases hg.lt_or_eq with hg' | hg'
        · rw [← hl', rsiCore_gain_only _ hg'] at h
          injection h with h'
          constructor
          · rw [← h']; norm_num
          · rw [← h']
        · rw [← hl', ← hg'] at h
          rw [show rsiCore 0 0 = FVal.nan from rfl] at h
          exact FVal.noConfusion h
    · rw [if_neg hdef] at h
      exact FVal.noConfusion h
  · intro closes i h13 hlen hnoloss ⟨k0, hk0, hkpos⟩
    have hl : loss_avg closes i = 0 := by
      unfold loss_avg
      rw [List.sum_eq_zero, zero_div]
      intro x hx
      obtain ⟨k, hk, rfl⟩ := List.mem_map.1 hx
      exact hnoloss k (List.mem_range.1 hk)
    have hg : 0 < gain_avg closes i := by
      unfold gain_avg
      apply div_pos _ (by norm_num)
      have hmem : gainAt closes (i - k0) ∈
          (List.range 14).map fun k => gainAt closes (i - k) :=
        List.mem_map.2 ⟨k0, List.mem_range.2 hk0, rfl⟩
      have hle := List.single_le_sum (l := (List.range 14).map fun k => gainAt closes (i - k))
        (fun x hx => by
          obtain ⟨k, -, rfl⟩ := List.mem_map.1 hx
          exact gainAt_nonneg closes (i - k)) _ hmem
      linarith
    unfold rsiAt
    rw [if_pos ⟨h13, hlen⟩, hl]
    exact rsiCore_gain_only _ hg
  · intro closes i h13 hlen hnogain hnoloss
    have hg : gain_avg closes i = 0 := by
      unfold gain_avg
      rw [List.sum_eq_zero, zero_div]
      intro x hx
      obtain ⟨k, hk, rfl⟩ := List.mem_map.1 hx
      exact hnogain k (List.mem_range.1 hk)
    have hl : loss_avg closes i = 0 := by
      unfold loss_avg
      rw [List.sum_eq_zero, zero_div]
      intro x hx
      obtain ⟨k, hk, rfl⟩ := List.mem_map.1 hx
      exact hnoloss k (List.mem_range.1 hk)
    unfold rsiAt
    rw [if_pos ⟨h13, hlen⟩, hg, hl]
    rfl

/-- 15 alternating closes 1,2,…: seven +1 and seven −1 deltas in the window
at bar 14, so the RSI there is 50. -/
def c6AltCloses : List ℚ := [1, 2, 1, 2, 1, 2, 1, 2, 1, 2, 1, 2, 1, 2, 1]

/-- 15 strictly increasing closes: no negative delta, all positive. -/
def c6UpCloses : List ℚ := [1, 2, 3, 4, 5, 6, 7, 8, 9, 10, 11, 12, 13, 14, 15]

/-- Witness for `c6_amended_rsi_range`: part 1 at the alternating series
(RSI 50), part 2 at the increasing series (RSI 100), part 3 at the flat
series (RSI NaN). -/
theorem c6_amended_rsi_range_witness :
    (0 ≤ (50 : ℚ) ∧ (50 : ℚ) ≤ 100) ∧
    rsiAt c6UpCloses 14 = FVal.fin 100 ∧
    rsiAt (List.replicate 20 (1 : ℚ)) 15 = FVal.nan :=
  ⟨c6_amended_rsi_range.1 c6AltCloses 14 50 (by decide),
   c6_amended_rsi_range.2.1 c6UpCloses 14 (by decide) (by decide) (by decide) (by decide),
   c6_amended_rsi_range.2.2 (List.replicate 20 1) 15 (by decide) (by decide)
     (by decide) (by decide)⟩

/-! ### Monte Carlo engine (monte_carlo.py)

`np.random.choice(trade_returns, size=n, replace=True)` draws `n`
independent uniform indices into the list; the random source is modelled by
an arbitrary function `draw : run → position → ℕ`, reduced into range
by `% n` (for a nonempty list every function hits exactly the uniform
index space). -/

/-- One Monte Carlo trial record (`simulation_results.append({...})`,
monte_carlo.py lines 120-127). -/
structure SimRun where
  run : ℕ
  final_balance : ℚ
  total_return : ℚ
  win_rate : ℚ
  max_drawdown : ℚ
  net_profit : ℚ
deriving DecidableEq

/-- The body of the trial loop (monte_carlo.py, lines 105-127). -/
def mcTrial (trade_returns : List ℚ) (initial_balance : ℚ) (draw : ℕ → ℕ → ℕ)
    (runIdx : ℕ) : SimRun :=
  let n := trade_returns.length
  let simulated_trades := (List.range n).map fun k => trade_returns.getD (draw runIdx k % n) 0
  let final_balance := initial_balance + simulated_trades.sum
  let total_return := (final_balance / initial_balance - 1) * 100
  let winning_trades := simulated_trades.countP (fun x => decide (0 < x))
  let win_rate :=
    if 0 < simulated_trades.length then (winning_trades : ℚ) / simulated_trades.length * 100
    else 0
  { run := runIdx
    final_balance := final_balance
    total_return := total_return
    win_rate := win_rate
    max_drawdown := calculate_max_drawdown simulated_trades
    net_profit := simulated_trades.sum }

/-- `run_monte_carlo_simulation` (monte_carlo.py, lines 75-127), up to the
list of per-trial records; an empty trade list returns the empty result. -/
def run_monte_carlo_simulation (trade_returns : List ℚ) (initial_balance : ℚ)
    (num_runs : ℕ) (draw : ℕ → ℕ → ℕ) : List SimRun :=
  if trade_returns = [] then []
  else (List.range num_runs).map (mcTrial trade_returns initial_balance draw)

/-- np.mean. -/
def meanQ (values : List ℚ) : ℚ := values.sum / values.length

/-- The square of np.std (population variance): np.std itself is the real
square root of this, so it is zero exactly when this is zero. -/
def varQ (values : List ℚ) : ℚ :=
  (values.map fun x => (x - meanQ values) ^ 2).sum / values.length

/-- np.percentile with the default linear interpolation: sort, take the
value at fractional position `p/100·(n−1)`. -/
def percentile (values : List ℚ) (p : ℚ) : ℚ :=
  let sorted := values.insertionSort (· ≤ ·)
  let n := sorted.length
  let pos := p / 100 * ((n : ℚ) - 1)
  let lo := ⌊pos⌋.toNat
  let hi := min (lo + 1) (n - 1)
  let frac := pos - (⌊pos⌋ : ℚ)
  sorted.getD lo 0 + frac * (sorted.getD hi 0 - sorted.getD lo 0)

/-- One metric's confidence-interval entry (monte_carlo.py, lines 192-197).
The `std` key is represented by its square `variance` (np.std is the real
square root of it, irrational in general). -/
structure ConfInterval where
  lower : ℚ
  upper : ℚ
  mean : ℚ
  variance : ℚ
deriving DecidableEq

/-- The per-metric loop body of `calculate_confidence_intervals`. -/
def ciOf (values : List ℚ) (alpha : ℚ) : ConfInterval :=
  { lower := percentile values (alpha / 2 * 100)
    upper := percentile values ((1 - alpha / 2) * 100)
    mean := meanQ values
    variance := varQ values }

/-- The four metrics' confidence intervals
(`calculate_confidence_intervals`, monte_carlo.py lines 172-199). -/
structure MetricCIs where
  final_balance : ConfInterval
  total_return : ConfInterval
  win_rate : ConfInterval
  max_drawdown : ConfInterval
deriving DecidableEq

/-- `calculate_confidence_intervals` (monte_carlo.py, lines 172-199). -/
def calculate_confidence_intervals (results : List SimRun) (alpha : ℚ) : MetricCIs :=
  { final_balance := ciOf (results.map (·.final_balance)) alpha
    total_return := ciOf (results.map (·.total_return)) alpha
    win_rate := ciOf (results.map (·.win_rate)) alpha
    max_drawdown := ciOf (results.map (·.max_drawdown)) alpha }

/-- The probability map built by `calculate_target_probabilities`
(monte_carlo.py, lines 201-251); each entry is
`np.sum(total_return ⋈ threshold) / len(results) * 100`. -/
structure TargetProbs where
  day1_probability : ℚ
  day2_probability : ℚ
  day3_min_probability : ℚ
  breakeven_probability : ℚ
  loss_probability : ℚ
deriving DecidableEq

/-- `calculate_target_probabilities` (monte_carlo.py, lines 201-251). -/
def calculate_target_probabilities (results : List SimRun) : TargetProbs :=
  let n : ℚ := results.length
  { day1_probability := (results.countP (fun r => decide (900 ≤ r.total_return)) : ℚ) / n * 100
    day2_probability := (results.countP (fun r => decide (200 ≤ r.total_return)) : ℚ) / n * 100
    day3_min_probability := (results.countP (fun r => decide (2 ≤ r.total_return)) : ℚ) / n * 100
    breakeven_probability := (results.countP (fun r => decide (0 ≤ r.total_return)) : ℚ) / n * 100
    loss_probability := (results.countP (fun r => decide (r.total_return < 0)) : ℚ) / n * 100 }

/-! ### Constant-list lemmas for the Monte Carlo claims -/

theorem sum_const_of_mem (l : List ℚ) (c : ℚ) (h : ∀ x ∈ l, x = c) :
    l.sum = l.length * c := by
  induction l with
  | nil => simp
  | cons a t ih =>
    rw [List.sum_cons, h a (List.mem_cons_self a t),
      ih fun x hx => h x (List.mem_cons_of_mem a hx), List.length_cons]
    push_cast
    ring

theorem meanQ_const (l : List ℚ) (c : ℚ) (hne : l ≠ []) (h : ∀ x ∈ l, x = c) :
    meanQ l = c := by
  have hn : (l.length : ℚ) ≠ 0 := by
    exact_mod_cast (List.length_pos.2 hne).ne'
  unfold meanQ
  rw [sum_const_of_mem l c h, mul_comm, mul_div_assoc, div_self hn, mul_one]

theorem varQ_const (l : List ℚ) (c : ℚ) (hne : l ≠ []) (h : ∀ x ∈ l, x = c) :
    varQ l = 0 := by
  unfold varQ
  rw [List.sum_eq_zero, zero_div]
  intro x hx
  obtain ⟨y, hy, rfl⟩ := List.mem_map.1 hx
  rw [h y hy, meanQ_const l c hne h, sub_self]
  ring

theorem percentile_const (l : List ℚ) (c p : ℚ) (hne : l ≠ [])
    (h : ∀ x ∈ l, x = c) (hp0 : 0 ≤ p) (hp100 : p ≤ 100) : percentile l p = c := by
  have hmem : ∀ x ∈ l.insertionSort (· ≤ ·), x = c := fun x hx =>
    h x ((List.perm_insertionSort _ l).subset hx)
  have hn1 : 1 ≤ (l.insertionSort (· ≤ ·)).length := by
    rw [(List.perm_insertionSort _ l).length_eq]
    exact List.length_pos.2 hne
  unfold percentile
  dsimp only
  set n := (l.insertionSort (· ≤ ·)).length with hn
  have hcast1 : (1 : ℚ) ≤ (n : ℚ) := by exact_mod_cast hn1
  set pos := p / 100 * ((n : ℚ) - 1) with hpos
  have hpos0 : 0 ≤ pos := by
    apply mul_nonneg (div_nonneg hp0 (by norm_num))
    linarith
  have hposle : pos ≤ (n : ℚ) - 1 := by
    apply mul_le_of_le_one_left (by linarith)
    rw [div_le_one (by norm_num : (0:ℚ) < 100)]
    exact hp100
  have hfl0 : 0 ≤ ⌊pos⌋ := Int.le_floor.2 (by exact_mod_cast hpos0)
  have hfl : (⌊pos⌋.toNat : ℚ) ≤ (n : ℚ) - 1 := by
    have h1 : ((⌊pos⌋.toNat : ℤ) : ℚ) ≤ (n : ℚ) - 1 := by
      rw [Int.toNat_of_nonneg hfl0]
      exact le_trans (Int.floor_le pos) hposle
    exact_mod_cast h1
  have hlo : ⌊pos⌋.toNat < n := by
    have : (⌊pos⌋.toNat : ℚ) < (n : ℚ) := by linarith
    exact_mod_cast this
  have hhi : min (⌊pos⌋.toNat + 1) (n - 1) < n := by omega
  rw [List.getD_eq_getElem _ 0 hlo, List.getD_eq_getElem _ 0 hhi,
    hmem _ (List.getElem_mem hlo), hmem _ (List.getElem_mem hhi)]
  ring

/-- Claim C7.  Resampling the singleton P&L list `[100]`: whatever the trial
count (≥ 1), the random draws, and the confidence level in [0, 100], every
trial's final balance is `initial_balance + 100`, and the final-balance
confidence interval collapses to that single point (lower = upper = mean,
standard deviation 0, stated as variance 0). -/
theorem c7_monte_carlo_singleton (num_runs : ℕ) (hruns : 1 ≤ num_runs)
    (initial_balance : ℚ) (_hbal : 0 < initial_balance)
    (conf : ℚ) (hc0 : 0 ≤ conf) (hc100 : conf ≤ 100) (draw : ℕ → ℕ → ℕ) :
    (∀ r ∈ run_monte_carlo_simulation [100] initial_balance num_runs draw,
       r.final_balance = initial_balance + 100) ∧
    (calculate_confidence_intervals
        (run_monte_carlo_simulation [100] initial_balance num_runs draw)
        ((100 - conf) / 100)).final_balance.lower = initial_balance + 100 ∧
    (calculate_confidence_intervals
        (run_monte_carlo_simulation [100] initial_balance num_runs draw)
        ((100 - conf) / 100)).final_balance.upper = initial_balance + 100 ∧
    (calculate_confidence_intervals
        (run_monte_carlo_simulation [100] initial_balance num_runs draw)
        ((100 - conf) / 100)).final_balance.mean = initial_balance + 100 ∧
    (calculate_confidence_intervals
        (run_monte_carlo_simulation [100] initial_balance num_runs draw)
        ((100 - conf) / 100)).final_balance.variance = 0 := by
  have hrm : run_monte_carlo_simulation [100] initial_balance num_runs draw =
      (List.range num_runs).map (mcTrial [100] initial_balance draw) := by
    unfold run_monte_carlo_simulation
    rw [if_neg (by simp)]
  have hfb : ∀ i, (mcTrial [100] initial_balance draw i).final_balance =
      initial_balance + 100 := by
    intro i
    unfold mcTrial
    simp [Nat.mod_one]
  have hall : ∀ r ∈ run_monte_carlo_simulation [100] initial_balance num_runs draw,
      r.final_balance = initial_balance + 100 := by
    intro r hr
    rw [hrm] at hr
    obtain ⟨i, -, rfl⟩ := List.mem_map.1 hr
    exact hfb i
  refine ⟨hall, ?_, ?_, ?_, ?_⟩ <;>
  · unfold calculate_confidence_intervals ciOf
    have hvmem : ∀ x ∈ (run_monte_carlo_simulation [100] initial_balance num_runs
        draw).map (·.final_balance), x = initial_balance + 100 := by
      intro x hx
      obtain ⟨r, hr, rfl⟩ := List.mem_map.1 hx
      exact hall r hr
    have hvne : (run_monte_carlo_simulation [100] initial_balance num_runs
        draw).map (·.final_balance) ≠ [] := by
      apply List.ne_nil_of_length_pos
      rw [List.length_map, hrm, List.length_map, List.length_range]
      omega
    have halpha0 : (0:ℚ) ≤ (100 - conf) / 100 := div_nonneg (by linarith) (by norm_num)
    have halpha1 : (100 - conf) / 100 ≤ 1 := by
      rw [div_le_one (by norm_num : (0:ℚ) < 100)]
      linarith
    first
    | exact percentile_const _ _ _ hvne hvmem (by linarith) (by linarith)
    | exact meanQ_const _ _ hvne hvmem
    | exact varQ_const _ _ hvne hvmem

/-- Witness for `c7_monte_carlo_singleton`: 3 trials, initial balance 10,
confidence level 95 %, an arbitrary concrete draw function. -/
theorem c7_monte_carlo_singleton_witness :
    (∀ r ∈ run_monte_carlo_simulation [100] 10 3 (fun i k => i + k),
       r.final_balance = 10 + 100) ∧
    (calculate_confidence_intervals
        (run_monte_carlo_simulation [100] 10 3 (fun i k => i + k))
        ((100 - 95) / 100)).final_balance.lower = 10 + 100 ∧
    (calculate_confidence_intervals
        (run_monte_carlo_simulation [100] 10 3 (fun i k => i + k))
        ((100 - 95) / 100)).final_balance.upper = 10 + 100 ∧
    (calculate_confidence_intervals
        (run_monte_carlo_simulation [100] 10 3 (fun i k => i + k))
        ((100 - 95) / 100)).final_balance.mean = 10 + 100 ∧
    (calculate_confidence_intervals
        (run_monte_carlo_simulation [100] 10 3 (fun i k => i + k))
        ((100 - 95) / 100)).final_balance.variance = 0 :=
  c7_monte_carlo_singleton 3 (by norm_num) 10 (by norm_num) 95 (by norm_num) (by norm_num)
    (fun i k => i + k)

theorem countP_split (results : List SimRun) :
    results.countP (fun r => decide (0 ≤ r.total_return)) +
      results.countP (fun r => decide (r.total_return < 0)) = results.length := by
  induction results with
  | nil => rfl
  | cons a t ih =>
    rw [List.countP_cons, List.countP_cons, List.length_cons]
    by_cases ha : 0 ≤ a.total_return
    · rw [if_pos (by simp [ha]), if_neg (by simp [not_lt.2 ha])]
      omega
    · rw [if_neg (by simp [ha]), if_pos (by simp [not_le.1 ha])]
      omega

/-- Claim C10.  For every nonempty trial set, the break-even probability
(fraction of trials with total return ≥ 0) and the loss probability
(fraction with total return < 0) partition the trials exactly: they sum to
100 %. -/
theorem c10_breakeven_loss_partition (results : List SimRun) (h : results ≠ []) :
    (calculate_target_probabilities results).breakeven_probability +
      (calculate_target_probabilities results).loss_probability = 100 := by
  unfold calculate_target_probabilities
  have hcount := countP_split results
  have hn : (results.length : ℚ) ≠ 0 := by
    exact_mod_cast (List.length_pos.2 h).ne'
  have hcast : ((results.countP (fun r => decide (0 ≤ r.total_return)) : ℕ) : ℚ) +
      ((results.countP (fun r => decide (r.total_return < 0)) : ℕ) : ℚ) =
      (results.length : ℚ) := by
    exact_mod_cast congrArg (Nat.cast (R := ℚ)) hcount
  field_simp
  linear_combination (100 : ℚ) * hcast

/-- Two concrete trial records, one non-negative and one negative return. -/
def c10Runs : List SimRun :=
  [ { run := 0, final_balance := 15, total_return := 50, win_rate := 100,
      max_drawdown := 0, net_profit := 5 },
    { run := 1, final_balance := 7, total_return := -30, win_rate := 0,
      max_drawdown := 3, net_profit := -3 } ]

/-- Witness for `c10_breakeven_loss_partition` at a concrete trial set. -/
theorem c10_breakeven_loss_partition_witness :
    (calculate_target_probabilities c10Runs).breakeven_probability +
      (calculate_target_probabilities c10Runs).loss_probability = 100 :=
  c10_breakeven_loss_partition c10Runs (by decide)

/-! ### Walk-forward engine (monte_carlo.py, `run_walk_forward_analysis`)

Timestamps are months: `pd.DateOffset(months=m)` is `+ m`. -/

/-- `df_trades.sort_values('exit_time')` (stable ascending sort). -/
def sortByExit (trades : List TradeRec) : List TradeRec :=
  trades.insertionSort (fun a b => a.exit_time ≤ b.exit_time)

/-- The metrics dict of `calculate_period_metrics` (monte_carlo.py,
lines 334-376). -/
structure PeriodMetrics where
  total_trades : ℕ
  winning_trades : ℕ
  losing_trades : ℕ
  win_rate : ℚ
  net_profit : ℚ
  total_return : ℚ
  profit_factor : ProfitFactor
  max_drawdown : ℚ
deriving DecidableEq

/-- `calculate_period_metrics` (monte_carlo.py, lines 334-376): `{}` — i.e.
`none` — on an empty slice, the metrics record otherwise. -/
def calculate_period_metrics (initial_balance : ℚ) (period_trades : List TradeRec) :
    Option PeriodMetrics :=
  if period_trades = [] then none
  else
    let pnls := period_trades.map (·.pnl)
    let total_trades := pnls.length
    let winning_trades := (pnls.filter (fun x => decide (0 < x))).length
    let losing_trades := (pnls.filter (fun x => decide (x < 0))).length
    let total_profit := (pnls.filter (fun x => decide (0 < x))).sum
    let total_loss := |(pnls.filter (fun x => decide (x < 0))).sum|
    let net_profit := pnls.sum
    some {
      total_trades := total_trades
      winning_trades := winning_trades
      losing_trades := losing_trades
      win_rate := if 0 < total_trades then (winning_trades : ℚ) / total_trades * 100 else 0
      net_profit := net_profit
      total_return := net_profit / initial_balance * 100
      profit_factor :=
        if 0 < total_loss then ProfitFactor.val (total_profit / total_loss)
        else ProfitFactor.posInf
      max_drawdown := calculate_max_drawdown pnls }

/-- One appended window record: the period metrics plus the keys the loop
adds (`period`, `start_date`, `end_date`, `num_trades`). -/
structure PeriodResult extends PeriodMetrics where
  period : ℕ
  start_date : ℚ
  end_date : ℚ
  num_trades : ℕ
deriving DecidableEq

/-- The `while current_date + period ≤ end_date` loop of
`run_walk_forward_analysis` (monte_carlo.py, lines 287-309).  The loop
itself advances `current_date` by `step` each iteration; `fuel` is an upper
bound on the number of iterations (any fuel at least the true iteration
count computes the loop exactly — the wrapper below supplies one, valid for
every positive step). -/
def wfLoop (initial_balance : ℚ) (sorted : List TradeRec)
    (period_months step_months : ℕ) (end_date : ℚ) :
    ℕ → ℚ → ℕ → List PeriodResult
  | 0, _, _ => []
  | fuel + 1, current_date, period_num =>
    if current_date + (period_months : ℚ) ≤ end_date then
      let period_end := current_date + (period_months : ℚ)
      let period_trades := sorted.filter fun t =>
        decide (current_date ≤ t.exit_time) && decide (t.exit_time < period_end)
      let rest := wfLoop initial_balance sorted period_months step_months end_date
        fuel (current_date + (step_months : ℚ)) (period_num + 1)
      match calculate_period_metrics initial_balance period_trades with
      | some m =>
        ({ toPeriodMetrics := m, period := period_num, start_date := current_date,
           end_date := period_end, num_trades := period_trades.length } : PeriodResult) :: rest
      | none => rest
    else []

/-- Unfolding equation of `wfLoop` for positive fuel. -/
theorem wfLoop_succ (initial_balance : ℚ) (sorted : List TradeRec)
    (period_months step_months : ℕ) (end_date : ℚ) (fuel : ℕ) (current_date : ℚ)
    (period_num : ℕ) :
    wfLoop initial_balance sorted period_months step_months end_date
        (fuel + 1) current_date period_num =
      if current_date + (period_months : ℚ) ≤ end_date then
        let period_end := current_date + (period_months : ℚ)
        let period_trades := sorted.filter fun t =>
          decide (current_date ≤ t.exit_time) && decide (t.exit_time < period_end)
        let rest := wfLoop initial_balance sorted period_months step_months end_date
          fuel (current_date + (step_months : ℚ)) (period_num + 1)
        match calculate_period_metrics initial_balance period_trades with
        | some m =>
          ({ toPeriodMetrics := m, period := period_num, start_date := current_date,
             end_date := period_end, num_trades := period_trades.length } : PeriodResult) :: rest
        | none => rest
      else [] := rfl

/-- `run_walk_forward_analysis` (monte_carlo.py, lines 253-309), up to the
list of per-window records.  The fuel `⌈end−start⌉.toNat + 1` dominates the
iteration count whenever the step is at least one month (each iteration
advances `current_date` by the step, and the loop stops once
`current_date > end − period`). -/
def run_walk_forward_analysis (initial_balance : ℚ) (trades : List TradeRec)
    (period_months step_months : ℕ) : List PeriodResult :=
  if trades = [] then []
  else
    let sorted := sortByExit trades
    let start_date := listMin (trades.map (·.exit_time))
    let end_date := listMax (trades.map (·.exit_time))
    wfLoop initial_balance sorted period_months step_months end_date
      ((⌈end_date - start_date⌉).toNat + 1) start_date 0

/-- A trade exiting at month 0 (the start of the 13-month span). -/
def c8t0 : TradeRec :=
  { symbol := "EURUSD", direction := .buy, entry_price := 1, exit_price := 1,
    entry_time := 0, exit_time := 0, lot_size := 1/100, pnl := 5, duration := 0 }

/-- A trade exiting at month 13 (the end of the 13-month span). -/
def c8t13 : TradeRec :=
  { symbol := "EURUSD", direction := .buy, entry_price := 1, exit_price := 1,
    entry_time := 13, exit_time := 13, lot_size := 1/100, pnl := 7, duration := 0 }

/-- Claim C8, counterexample.  The trade log `[c8t0, c8t13]` spans exactly 13
months, yet the walk-forward run with a 12-month period and 1-month step
emits exactly ONE window, not two: window 1 = [month 1, month 13) contains
no trade (the half-open interval excludes the trade exiting exactly at month
13) and zero-trade windows are skipped. -/
theorem c8_thirteen_month_span_one_window :
    listMin ([c8t0, c8t13].map (·.exit_time)) = 0 ∧
    listMax ([c8t0, c8t13].map (·.exit_time)) = 13 ∧
    (run_walk_forward_analysis 10 [c8t0, c8t13] 12 1).length = 1 := by
  refine ⟨by decide, by decide, by decide⟩

/-- Claim C8, amended.  Over a trade log spanning exactly 13 months, the
12-month/1-month walk-forward considers exactly the two candidate windows
[start, start+12) and [start+1, start+13), and emits each one — with its
metrics computed only over the trades whose exit time lies in the window's
half-open interval — precisely when that window contains at least one trade
(`calculate_period_metrics` returns `none` exactly on an empty slice, and
such windows are skipped). -/
theorem c8_amended_walk_forward (initial_balance : ℚ) (trades : List TradeRec) (s : ℚ)
    (hne : trades ≠ [])
    (hmin : listMin (trades.map (·.exit_time)) = s)
    (hmax : listMax (trades.map (·.exit_time)) = s + 13) :
    run_walk_forward_analysis initial_balance trades 12 1 =
      (match calculate_period_metrics initial_balance
          ((sortByExit trades).filter fun t =>
            decide (s ≤ t.exit_time) && decide (t.exit_time < s + 12)) with
       | some m =>
         [{ toPeriodMetrics := m, period := 0, start_date := s, end_date := s + 12,
            num_trades := ((sortByExit trades).filter fun t =>
              decide (s ≤ t.exit_time) && decide (t.exit_time < s + 12)).length }]
       | none => []) ++
      (match calculate_period_metrics initial_balance
          ((sortByExit trades).filter fun t =>
            decide (s + 1 ≤ t.exit_time) && decide (t.exit_time < s + 13)) with
       | some m =>
         [{ toPeriodMetrics := m, period := 1, start_date := s + 1, end_date := s + 13,
            num_trades := ((sortByExit trades).filter fun t =>
              decide (s + 1 ≤ t.exit_time) && decide (t.exit_time < s + 13)).length }]
       | none => []) := by
  unfold run_walk_forward_analysis
  rw [if_neg hne, hmin, hmax]
  dsimp only
  have hceil : (⌈s + 13 - s⌉).toNat + 1 = 14 := by
    rw [show s + 13 - s = (13:ℚ) by ring]
    decide
  rw [hceil]
  rw [show (14:ℕ) = 13 + 1 from rfl, wfLoop_succ]
  rw [if_pos (by push_cast; linarith : s + ((12:ℕ):ℚ) ≤ s + 13)]
  dsimp only
  rw [show (13:ℕ) = 12 + 1 from rfl, wfLoop_succ]
  rw [if_pos (by push_cast; linarith : s + ((1:ℕ):ℚ) + ((12:ℕ):ℚ) ≤ s + 13)]
  dsimp only
  rw [show (12:ℕ) = 11 + 1 from rfl, wfLoop_succ]
  rw [if_neg (by push_cast; linarith : ¬ s + ((1:ℕ):ℚ) + ((1:ℕ):ℚ) + ((12:ℕ):ℚ) ≤ s + 13)]
  push_cast
  rw [show s + 1 + 12 = s + 13 by ring]
  cases h0 : calculate_period_metrics initial_balance
      ((sortByExit trades).filter fun t =>
        decide (s ≤ t.exit_time) && decide (t.exit_time < s + 12)) with
  | none =>
    cases h1 : calculate_period_metrics initial_balance
        ((sortByExit trades).filter fun t =>
          decide (s + 1 ≤ t.exit_time) && decide (t.exit_time < s + 13)) with
    | none => simp
    | some m1 => simp
  | some m0 =>
    cases h1 : calculate_period_metrics initial_balance
        ((sortByExit trades).filter fun t =>
          decide (s + 1 ≤ t.exit_time) && decide (t.exit_time < s + 13)) with
    | none => simp
    | some m1 => simp

/-- Witness for `c8_amended_walk_forward` at the concrete two-trade log
(span exactly 13 months, start month 0). -/
theorem c8_amended_walk_forward_witness :
    run_walk_forward_analysis 10 [c8t0, c8t13] 12 1 =
      (match calculate_period_metrics 10
          ((sortByExit [c8t0, c8t13]).filter fun t =>
            decide ((0:ℚ) ≤ t.exit_time) && decide (t.exit_time < (0:ℚ) + 12)) with
       | some m =>
         [{ toPeriodMetrics := m, period := 0, start_date := (0:ℚ), end_date := (0:ℚ) + 12,
            num_trades := ((sortByExit [c8t0, c8t13]).filter fun t =>
              decide ((0:ℚ) ≤ t.exit_time) && decide (t.exit_time < (0:ℚ) + 12)).length }]
       | none => []) ++
      (match calculate_period_metrics 10
          ((sortByExit [c8t0, c8t13]).filter fun t =>
            decide ((0:ℚ) + 1 ≤ t.exit_time) && decide (t.exit_time < (0:ℚ) + 13)) with
       | some m =>
         [{ toPeriodMetrics := m, period := 1, start_date := (0:ℚ) + 1,
            end_date := (0:ℚ) + 13,
            num_trades := ((sortByExit [c8t0, c8t13]).filter fun t =>
              decide ((0:ℚ) + 1 ≤ t.exit_time) && decide (t.exit_time < (0:ℚ) + 13)).length }]
       | none => []) :=
  c8_amended_walk_forward 10 [c8t0, c8t13] 0 (by decide) (by decide) (by decide)

end TradingRobot
